import Mathlib

/-!
Verification of the `runn` repository's path utilities and HTTP runner
against its natural-language specification.

The Go source is shallowly embedded: pure string manipulation is translated
to Lean functions over `String` / `List Char`; calls into external
collaborators (the OS file system, the network transport, the `ghfs`,
`doublestar`, `urlfilepath` and `go-json` libraries, the DNS resolver and
the configurable request/response validator) are passed in as explicit
environment parameters, since their behaviour is outside this repository.
Everything else follows the Go control flow statement by statement.
-/

namespace Runn

/-! ## Go string primitives

Go strings are byte slices; we model them as Lean `String`s and implement
the few `strings.*` functions the source uses over `List Char`.
-/

/-- Embedding of Go `strings.HasPrefix(s, pre)`. -/
def goStartsWith (s pre : String) : Bool :=
  pre.data.isPrefixOf s.data

/-- Embedding of Go `strings.HasSuffix(s, suf)`. -/
def goEndsWith (s suf : String) : Bool :=
  suf.data.isSuffixOf s.data

/-- Embedding of Go `strings.Contains(s, sub)`: some drop of `s` starts with `sub`. -/
def goContains (s sub : String) : Bool :=
  (List.range (s.data.length + 1)).any fun i => sub.data.isPrefixOf (s.data.drop i)

/-- Splitting a character list at every occurrence of `sep`
(Go `strings.Split` semantics: `[[]]` on the empty input). -/
def splitChars (sep : Char) : List Char → List (List Char)
  | [] => [[]]
  | a :: rest =>
    let r := splitChars sep rest
    if a = sep then [] :: r else (a :: r.headI) :: r.tail

/-- Embedding of Go `strings.Split(s, sep)` for a one-character separator. -/
def goSplit (s : String) (sep : Char) : List String :=
  (splitChars sep s.data).map fun l => String.mk l

/-- Fuel-driven single-pattern replacement over character lists; the fuel is
the input length, which bounds the number of steps. -/
def replaceFuel (pat rep : List Char) : Nat → List Char → List Char
  | 0, l => l
  | _ + 1, [] => []
  | fuel + 1, a :: rest =>
    if pat ≠ [] ∧ pat.isPrefixOf (a :: rest) then
      rep ++ replaceFuel pat rep fuel ((a :: rest).drop pat.length)
    else
      a :: replaceFuel pat rep fuel rest

/-- Embedding of Go `strings.Replace(s, pat, rep, -1)` (every occurrence,
left to right, non-overlapping). -/
def goReplace (s pat rep : String) : String :=
  String.mk (replaceFuel pat.data rep.data s.data.length s.data)

/-- Embedding of Go `strings.TrimPrefix(s, pre)`. -/
def goTrimPre (s pre : String) : String :=
  if goStartsWith s pre then String.mk (s.data.drop pre.data.length) else s

/-- Embedding of Go `strings.TrimSuffix(s, suf)`. -/
def goTrimSuf (s suf : String) : String :=
  if goEndsWith s suf then String.mk (s.data.take (s.data.length - suf.data.length)) else s

/-- Embedding of Go `strings.ToUpper(s)` (ASCII is all the source feeds it). -/
def goToUpper (s : String) : String :=
  String.mk (s.data.map Char.toUpper)

/-! ## `path.go`: path-list fetching -/

/-- `schemeHttps` constant from `path.go`. -/
def schemeHttps : String := "https"

/-- `schemeGitHub` constant from `path.go`. -/
def schemeGitHub : String := "github"

/-- `prefixHttps` constant from `path.go` (`schemeHttps + "://"`). -/
def prefixOfHttps : String := schemeHttps ++ "://"

/-- `prefixGitHub` constant from `path.go` (`schemeGitHub + "://"`). -/
def prefixOfGitHub : String := schemeGitHub ++ "://"

/-- `repKey` from `path.go`: the replacement token protecting a scheme across
`filepath.SplitList`; `repKey("https://") = "RUNN_HTTPS_SCHEME"`. -/
def repKey (s : String) : String :=
  "RUNN_" ++ goTrimSuf (goToUpper s) "://" ++ "_SCHEME"

/-- `splitList` from `path.go`: protect the two scheme prefixes, split at the
OS path-list separator `:` (Go `filepath.SplitList`, which returns the empty
list on the empty string), and restore the prefixes in each element. -/
def splitList (pathp : String) : List String :=
  let protected_ := goReplace (goReplace pathp prefixOfHttps (repKey prefixOfHttps))
      prefixOfGitHub (repKey prefixOfGitHub)
  let parts := if protected_ = "" then [] else goSplit protected_ ':'
  parts.map fun p =>
    goReplace (goReplace p (repKey prefixOfHttps) prefixOfHttps) (repKey prefixOfGitHub) prefixOfGitHub

/-- `unique` from `path.go`, with the `map[string]struct{}` membership set
represented by the accumulated output slice itself (the map's key set always
equals the set of elements of `u` in the source). -/
def uniqueAux : List String → List String → List String
  | [], u => u
  | s :: rest, u =>
    if s ∈ u then uniqueAux rest u else uniqueAux rest (u ++ [s])

/-- `unique` from `path.go`: drop every repeated element, keeping first
occurrences in order. -/
def unique (xs : List String) : List String := uniqueAux xs []

/-- The canonical first-occurrence deduplication, used as the specification
that `unique` is proved to implement. -/
def firstDedup : List String → List String
  | [] => []
  | a :: rest => a :: (firstDedup rest).filter (fun b => b ≠ a)

/-- Environment of external collaborators used by `fetchPaths`:
the `doublestar` pattern splitter, the local file system, the HTTPS fetcher
and the GitHub fetcher (`ghfs.New`/`Sub`/`fetchPathsViaGitHub` composed,
since all three only perform I/O). -/
structure FetchEnv where
  /-- `doublestar.SplitPattern(filepath.ToSlash(pp))` -/
  splitPattern : String → String × String
  /-- whether `readFile(pp)` succeeds (local single-file probe) -/
  readFileOk : String → Bool
  /-- `filepath.Abs(base)` -/
  absPath : String → Except Unit String
  /-- `doublestar.GlobWalk` over `os.DirFS(abs)`: the walked non-directory entries -/
  globWalk : String → String → Except Unit (List String)
  /-- `filepath.Join(base, p)` for walked entries -/
  joinPath : String → String → String
  /-- `fetchPathViaHTTPS(pp)`: fetch and return the local cache path -/
  httpsFetch : String → Except Unit String
  /-- `ghfs.New(owner, repo)` + `Sub` + `fetchPathsViaGitHub(fsys, base, pattern)` -/
  githubFetch : String → String → Except Unit (List String)

/-- One iteration of the `fetchPaths` loop body: returns the paths this
list entry contributes, or the error that aborts the whole call. -/
def fetchOne (env : FetchEnv) (pp : String) : Except Unit (List String) :=
  let bp := env.splitPattern pp
  let base := bp.1
  let pattern := bp.2
  if goStartsWith base prefixOfHttps then
    -- https://
    if goContains pattern "*" then
      Except.error ()
    else
      match env.httpsFetch pp with
      | Except.error e => Except.error e
      | Except.ok p => Except.ok [p]
  else if goStartsWith base prefixOfGitHub then
    -- github://
    let splitted := goSplit (goTrimPre base prefixOfGitHub) '/'
    if splitted.length < 2 then
      Except.error ()
    else
      env.githubFetch base pattern
  else
    -- Local file or cache
    if ¬ goContains pattern "*" then
      -- Local single file: skip if file not found
      if env.readFileOk pp then Except.ok [pp] else Except.ok []
    else
      match env.absPath base with
      | Except.error e => Except.error e
      | Except.ok abs =>
        match env.globWalk abs pattern with
        | Except.error e => Except.error e
        | Except.ok ps => Except.ok (ps.map (env.joinPath base))

/-- The accumulation loop of `fetchPaths`, before the final `unique`. -/
def fetchPathsRaw (env : FetchEnv) (pathp : String) : Except Unit (List String) :=
  (splitList pathp).foldlM (fun acc pp => (fetchOne env pp).map (acc ++ ·)) []

/-- `fetchPaths` from `path.go`: accumulate paths over the split list, then
return `unique(paths)`. -/
def fetchPaths (env : FetchEnv) (pathp : String) : Except Unit (List String) :=
  (fetchPathsRaw env pathp).map unique

lemma uniqueAux_eq_firstDedup_filter (xs : List String) :
    ∀ u, uniqueAux xs u = u ++ (firstDedup xs).filter (fun b => decide (b ∉ u)) := by
  induction xs with
  | nil => intro u; simp [uniqueAux, firstDedup]
  | cons s rest ih =>
    intro u
    by_cases hs : s ∈ u
    · rw [uniqueAux, if_pos hs, ih u, firstDedup]
      congr 1
      rw [List.filter_cons, if_neg (by simp [hs]), List.filter_filter]
      refine List.filter_congr ?_
      intro b _
      by_cases hbs : b = s
      · subst hbs; simp [hs]
      · simp [hbs]
    · rw [uniqueAux, if_neg hs, ih (u ++ [s]), firstDedup]
      rw [List.filter_cons, if_pos (by simp [hs]), List.filter_filter]
      rw [List.append_assoc, List.singleton_append]
      congr 2
      refine List.filter_congr ?_
      intro b _
      by_cases hbs : b = s
      · subst hbs; simp
      · by_cases hbu : b ∈ u <;> simp [hbs, hbu]

lemma unique_eq_firstDedup (xs : List String) : unique xs = firstDedup xs := by
  rw [unique, uniqueAux_eq_firstDedup_filter xs []]
  simp

lemma mem_firstDedup {a : String} {xs : List String} : a ∈ firstDedup xs ↔ a ∈ xs := by
  induction xs with
  | nil => simp [firstDedup]
  | cons s rest ih =>
    rw [firstDedup]
    by_cases hbs : a = s
    · subst hbs; simp
    · simp [hbs, List.mem_filter, ih]

lemma nodup_firstDedup (xs : List String) : (firstDedup xs).Nodup := by
  induction xs with
  | nil => exact List.nodup_nil
  | cons s rest ih =>
    rw [firstDedup]
    refine List.Nodup.cons ?_ (List.Nodup.filter _ ih)
    intro hmem
    rcases List.mem_filter.mp hmem with ⟨_, hne⟩
    simp at hne

lemma firstDedup_pairwise_indexOf (xs : List String) :
    List.Pairwise (fun a b => xs.indexOf a < xs.indexOf b) (firstDedup xs) := by
  induction xs with
  | nil => exact List.Pairwise.nil
  | cons s rest ih =>
    rw [firstDedup]
    refine List.Pairwise.cons ?_ ?_
    · intro b hb
      rcases List.mem_filter.mp hb with ⟨_, hne⟩
      have hne' : b ≠ s := by simpa using hne
      rw [List.indexOf_cons_self, List.indexOf_cons_ne _ (fun h => hne' h.symm)]
      exact Nat.succ_pos _
    · have hfilter := List.Pairwise.filter (fun b => decide (b ≠ s)) ih
      refine hfilter.imp_of_mem ?_
      intro a b ha hb hlt
      have ha' : a ≠ s := by simpa using (List.mem_filter.mp ha).2
      have hb' : b ≠ s := by simpa using (List.mem_filter.mp hb).2
      rw [List.indexOf_cons_ne _ (fun h => ha' h.symm),
        List.indexOf_cons_ne _ (fun h => hb' h.symm)]
      exact Nat.succ_lt_succ hlt

/-- Error classification of `fetchPath`. -/
inductive FetchPathErr where
  | passthrough
  | multiplePathsFound
  | pathNotFound
deriving DecidableEq, Repr

/-- `fetchPath` from `path.go`: propagate `fetchPaths` errors, reject
multiple and zero results, return the single path. -/
def fetchPath (env : FetchEnv) (path : String) : Except FetchPathErr String :=
  match fetchPaths env path with
  | Except.error _ => Except.error FetchPathErr.passthrough
  | Except.ok paths =>
    if paths.length > 1 then Except.error FetchPathErr.multiplePathsFound
    else if paths.length = 0 then Except.error FetchPathErr.pathNotFound
    else Except.ok (paths.headI)

/-- C8: `fetchPaths` returns a duplicate-free list that keeps the first
occurrence order of the accumulated paths: it maps `unique` over the raw
accumulation, the result has no duplicates, has exactly the raw list's
members, and is ordered by each element's first occurrence in the raw list. -/
theorem c8_fetchPaths_nodup_first_occurrence (env : FetchEnv) (pathp : String)
    (raw : List String) (h : fetchPathsRaw env pathp = Except.ok raw) :
    fetchPaths env pathp = Except.ok (unique raw) ∧
    (unique raw).Nodup ∧
    (∀ a, a ∈ unique raw ↔ a ∈ raw) ∧
    List.Pairwise (fun a b => raw.indexOf a < raw.indexOf b) (unique raw) := by
  refine ⟨by rw [fetchPaths, h]; rfl, ?_, ?_, ?_⟩ <;> rw [unique_eq_firstDedup]
  · exact nodup_firstDedup raw
  · intro a; exact mem_firstDedup
  · exact firstDedup_pairwise_indexOf raw

/-- A concrete `FetchEnv` used to evaluate the path functions: every local
single-file probe succeeds, every remote or glob operation fails. -/
def fetchEnvW : FetchEnv :=
  ⟨fun s => (s, ""), fun _ => true, fun _ => Except.error (), fun _ _ => Except.error (),
    fun b p => b ++ "/" ++ p, fun _ => Except.error (), fun _ _ => Except.error ()⟩

/-- A concrete `FetchEnv` in which no local file exists. -/
def fetchEnvNoFile : FetchEnv :=
  ⟨fun s => (s, ""), fun _ => false, fun _ => Except.error (), fun _ _ => Except.error (),
    fun b p => b ++ "/" ++ p, fun _ => Except.error (), fun _ _ => Except.error ()⟩

theorem c8_fetchPaths_witness :
    fetchPaths fetchEnvW "a.yml:a.yml:b.yml" = Except.ok (unique ["a.yml", "a.yml", "b.yml"]) ∧
    (unique ["a.yml", "a.yml", "b.yml"]).Nodup ∧
    (∀ a, a ∈ unique ["a.yml", "a.yml", "b.yml"] ↔ a ∈ ["a.yml", "a.yml", "b.yml"]) ∧
    List.Pairwise
      (fun a b => ["a.yml", "a.yml", "b.yml"].indexOf a < ["a.yml", "a.yml", "b.yml"].indexOf b)
      (unique ["a.yml", "a.yml", "b.yml"]) :=
  c8_fetchPaths_nodup_first_occurrence fetchEnvW "a.yml:a.yml:b.yml"
    ["a.yml", "a.yml", "b.yml"] (by rfl)

/-- C9: `fetchPath` propagates a `fetchPaths` error, rejects an empty result
with "path not found", rejects more than one path with "multiple paths
found", and otherwise returns the unique path. -/
theorem c9_fetchPath_characterization (env : FetchEnv) (p : String) :
    (∀ e, fetchPaths env p = Except.error e →
      fetchPath env p = Except.error FetchPathErr.passthrough) ∧
    (fetchPaths env p = Except.ok [] →
      fetchPath env p = Except.error FetchPathErr.pathNotFound) ∧
    (∀ l, fetchPaths env p = Except.ok l → 1 < l.length →
      fetchPath env p = Except.error FetchPathErr.multiplePathsFound) ∧
    (∀ x, fetchPaths env p = Except.ok [x] → fetchPath env p = Except.ok x) := by
  refine ⟨?_, ?_, ?_, ?_⟩
  · intro e he
    simp only [fetchPath, he]
  · intro h
    simp only [fetchPath, h]
    rfl
  · intro l hl hlen
    simp only [fetchPath, hl]
    rw [if_pos hlen]
  · intro x hx
    simp only [fetchPath, hx]
    rfl

theorem c9_fetchPath_witness :
    fetchPath fetchEnvW "https://x" = Except.error FetchPathErr.passthrough ∧
    fetchPath fetchEnvNoFile "a.yml" = Except.error FetchPathErr.pathNotFound ∧
    fetchPath fetchEnvW "a.yml:b.yml" = Except.error FetchPathErr.multiplePathsFound ∧
    fetchPath fetchEnvW "a.yml" = Except.ok "a.yml" :=
  ⟨(c9_fetchPath_characterization fetchEnvW "https://x").1 () (by rfl),
    (c9_fetchPath_characterization fetchEnvNoFile "a.yml").2.1 (by rfl),
    (c9_fetchPath_characterization fetchEnvW "a.yml:b.yml").2.2.1
      ["a.yml", "b.yml"] (by rfl) (by decide),
    (c9_fetchPath_characterization fetchEnvW "a.yml").2.2.2 "a.yml" (by rfl)⟩

/-! ## HTTP runner: cookie propagation (`httpRequest.setCookieHeader`, `isLocalhost`) -/

/-- An `http.Cookie` as used by `setCookieHeader`: name, value, domain, path
and expiry. Go's zero `time.Time` (`Expires.IsZero()`) is modelled as `none`;
a set expiry is an instant on a discrete clock. -/
structure HttpCookie where
  name : String
  value : String
  domain : String
  path : String
  expires : Option Nat
deriving DecidableEq, Repr

/-- `cookie.Expires.IsZero() || cookie.Expires.After(time.Now())` with
`now` the current instant. -/
def cookieFresh (now : Nat) : Option Nat → Bool
  | none => true
  | some e => decide (now < e)

/-- `splitHostPort := strings.Split(host, ":"); host = splitHostPort[0]`. -/
def stripPort (host : String) : String :=
  (goSplit host ':').headI

/-- The DNS resolver `net.LookupIP`, abstracted: each returned IP is
represented by its `IsLoopback()` flag. -/
def LookupIP : Type := String → Except Unit (List Bool)

/-- `isLocalhost` from the source: look up the domain and report whether any
returned IP is a loopback address; the second component is Go's non-nil
error flag (`true` exactly when the lookup failed). -/
def isLocalhost (lookupIP : LookupIP) (domain : String) : Bool × Bool :=
  match lookupIP domain with
  | Except.error _ => (false, true)
  | Except.ok ips => (ips.any id, false)

/-- The cookies one jar entry `(host, domainCookies)` contributes in the
`setCookieHeader` loop body: the host (port stripped) must either be
`"localhost"` and pass the loopback DNS check, or be a suffix of the request
hostname; each cookie must then pass the path-prefix and expiry checks. -/
def entryCookies (hostname path0 : String) (lookupIP : LookupIP) (now : Nat)
    (entry : String × List HttpCookie) : List HttpCookie :=
  let host := stripPort entry.1
  let hostOK :=
    if host = "localhost" then
      let lr := isLocalhost lookupIP hostname
      lr.1 && !lr.2
    else
      goEndsWith hostname host
  if hostOK then
    entry.2.filter fun c =>
      (c.path == "" || goStartsWith path0 c.path) && cookieFresh now c.expires
  else
    []

/-- `httpRequest.setCookieHeader` from the source, returning the list of
cookies passed to `req.AddCookie`: nothing unless the request opts in
(`r.useCookie != nil && *r.useCookie`), otherwise every jar entry's
contribution. `hostname` is `req.URL.Hostname()` and `path0` is
`req.URL.Path`; the jar map is modelled as an association list. -/
def setCookieHeader (useCookie : Option Bool) (hostname path0 : String)
    (jar : List (String × List HttpCookie)) (lookupIP : LookupIP) (now : Nat) :
    List HttpCookie :=
  if useCookie = some true then
    jar.flatMap (entryCookies hostname path0 lookupIP now)
  else
    []

lemma mem_entryCookies (hostname path0 : String) (lk : LookupIP) (now : Nat)
    (e : String × List HttpCookie) (c : HttpCookie) :
    c ∈ entryCookies hostname path0 lk now e ↔
      c ∈ e.2 ∧
      ((stripPort e.1 = "localhost" ∧ ∃ ips, lk hostname = Except.ok ips ∧ ips.any id = true) ∨
        (stripPort e.1 ≠ "localhost" ∧ goEndsWith hostname (stripPort e.1) = true)) ∧
      (c.path = "" ∨ goStartsWith path0 c.path = true) ∧
      cookieFresh now c.expires = true := by
  simp only [entryCookies]
  by_cases hl : stripPort e.1 = "localhost"
  · rw [if_pos hl]
    cases hlk : lk hostname with
    | error u =>
      simp [isLocalhost, hlk, hl]
    | ok ips =>
      by_cases hany : ips.any id = true
      · simp [isLocalhost, hlk, hl, hany, List.mem_filter, and_assoc]
        exact fun _ _ _ => by simpa using hany
      · simp [isLocalhost, hlk, hl, hany]
        exact fun _ hmem _ => absurd (by simpa using hmem) hany
  · rw [if_neg hl]
    by_cases hsuf : goEndsWith hostname (stripPort e.1) = true
    · simp [hl, hsuf, List.mem_filter, and_assoc]
    · simp [hl, hsuf]

/-- C2 counterexample: with the jar holding a cookie under host
`"localhost"` and the request going to `"127.0.0.1"` (whose DNS lookup
returns a loopback address), the cookie is attached even though
`"localhost"` is not a suffix of the request hostname — so attachment is
not equivalent to the plain domain-suffix rule. -/
theorem c2_suffix_rule_counterexample :
    setCookieHeader (some true) "127.0.0.1" "/"
        [("localhost", [⟨"sess", "v", "localhost", "", none⟩])]
        (fun _ => Except.ok [true]) 0 =
      [⟨"sess", "v", "localhost", "", none⟩] ∧
    goEndsWith "127.0.0.1" "localhost" = false := by
  constructor
  · rfl
  · rfl

/-- C2 (amended): a cookie is attached iff the request opts in and some jar
entry contains it whose port-stripped host either is `"localhost"` and the
DNS lookup of the request hostname returns a loopback address, or is not
`"localhost"` and is a suffix of the request hostname — and the cookie's
path is empty or a prefix of the request path and its expiry is unset or in
the future. Attachment is a total function: it never produces an error. -/
theorem c2_cookie_attachment_characterization (uc : Option Bool) (hostname path0 : String)
    (jar : List (String × List HttpCookie)) (lk : LookupIP) (now : Nat) (c : HttpCookie) :
    c ∈ setCookieHeader uc hostname path0 jar lk now ↔
      uc = some true ∧
      ∃ e ∈ jar, c ∈ e.2 ∧
        ((stripPort e.1 = "localhost" ∧ ∃ ips, lk hostname = Except.ok ips ∧ ips.any id = true) ∨
          (stripPort e.1 ≠ "localhost" ∧ goEndsWith hostname (stripPort e.1) = true)) ∧
        (c.path = "" ∨ goStartsWith path0 c.path = true) ∧
        cookieFresh now c.expires = true := by
  unfold setCookieHeader
  by_cases huc : uc = some true
  · rw [if_pos huc]
    simp only [List.mem_flatMap, huc, true_and]
    constructor
    · rintro ⟨e, he, hc⟩
      exact ⟨e, he, (mem_entryCookies hostname path0 lk now e c).mp hc⟩
    · rintro ⟨e, he, h⟩
      exact ⟨e, he, (mem_entryCookies hostname path0 lk now e c).mpr h⟩
  · rw [if_neg huc]
    simp [huc]

/-- C3: for a jar entry stored under host `"localhost"` (port stripped), a
cookie is attached iff the DNS lookup of the request's destination hostname
succeeds and returns at least one loopback IP (and the cookie passes the
path and expiry checks); if the lookup errors, nothing is attached from that
entry — there is no fallback to the domain-suffix rule. -/
theorem c3_localhost_requires_loopback_lookup (h0 : String) (cs : List HttpCookie)
    (hostname path0 : String) (lk : LookupIP) (now : Nat) (c : HttpCookie)
    (hloc : stripPort h0 = "localhost") :
    (c ∈ setCookieHeader (some true) hostname path0 [(h0, cs)] lk now ↔
      (∃ ips, lk hostname = Except.ok ips ∧ ips.any id = true) ∧ c ∈ cs ∧
        (c.path = "" ∨ goStartsWith path0 c.path = true) ∧
        cookieFresh now c.expires = true) ∧
    (∀ u, lk hostname = Except.error u →
      setCookieHeader (some true) hostname path0 [(h0, cs)] lk now = []) := by
  constructor
  · rw [setCookieHeader, if_pos rfl]
    simp only [List.mem_flatMap, List.mem_singleton, exists_eq_left]
    rw [mem_entryCookies]
    simp only [hloc]
    constructor
    · rintro ⟨hc, hhost, hpath, hfresh⟩
      rcases hhost with ⟨_, hex⟩ | ⟨hne, _⟩
      · exact ⟨hex, hc, hpath, hfresh⟩
      · exact absurd rfl hne
    · rintro ⟨hex, hc, hpath, hfresh⟩
      exact ⟨hc, Or.inl ⟨trivial, hex⟩, hpath, hfresh⟩
  · intro u hu
    rw [setCookieHeader, if_pos rfl]
    have h1 : entryCookies hostname path0 lk now (h0, cs) = [] := by
      simp [entryCookies, isLocalhost, hloc, hu]
    refine List.eq_nil_iff_forall_not_mem.mpr ?_
    intro x hx
    rcases List.mem_flatMap.mp hx with ⟨e, he, hxe⟩
    rw [List.mem_singleton] at he
    subst he
    rw [h1] at hxe
    exact absurd hxe (List.not_mem_nil x)

theorem c3_localhost_witness :
    (⟨"sess", "v", "", "", none⟩ ∈
        setCookieHeader (some true) "myhost" "/a"
          [("localhost:8080", [⟨"sess", "v", "", "", none⟩])]
          (fun _ => Except.ok [false, true]) 0 ↔
      (∃ ips, (fun _ : String => Except.ok (ε := Unit) [false, true]) "myhost" = Except.ok ips ∧
          ips.any id = true) ∧
        (⟨"sess", "v", "", "", none⟩ : HttpCookie) ∈ [(⟨"sess", "v", "", "", none⟩ : HttpCookie)] ∧
        ((⟨"sess", "v", "", "", none⟩ : HttpCookie).path = "" ∨
          goStartsWith "/a" (⟨"sess", "v", "", "", none⟩ : HttpCookie).path = true) ∧
        cookieFresh 0 (⟨"sess", "v", "", "", none⟩ : HttpCookie).expires = true) ∧
    (∀ u, (fun _ : String => Except.ok (ε := Unit) [false, true]) "myhost" = Except.error u →
      setCookieHeader (some true) "myhost" "/a"
          [("localhost:8080", [⟨"sess", "v", "", "", none⟩])]
          (fun _ => Except.ok [false, true]) 0 = []) :=
  c3_localhost_requires_loopback_lookup "localhost:8080" [⟨"sess", "v", "", "", none⟩]
    "myhost" "/a" (fun _ => Except.ok [false, true]) 0 ⟨"sess", "v", "", "", none⟩ (by rfl)

/-! ## `readFile` and the package-level cache directory (`globalCacheDir`) -/

/-- Error classification for `readFile`: each constructor labels the call
whose Go error is propagated. -/
inductive RFErr where
  | statErr
  | readErr
  | relErr
  | decodeErr
  | httpsFetchErr
  | githubFetchErr
  | writeErr
  | unsupportedScheme
deriving DecidableEq, Repr

/-- A parsed `url.URL` as produced by `urlfilepath.Decode`: its scheme and
the remainder rendered by `u.String()`. -/
structure GoURL where
  scheme : String
  rest : String
deriving DecidableEq, Repr

/-- `u.String()` for the modelled URL. -/
def urlString (u : GoURL) : String := u.scheme ++ "://" ++ u.rest

/-- External collaborators of `readFile`: the file system (`os.Stat`,
`os.ReadFile`, `os.WriteFile`), `filepath.Rel`, `urlfilepath.Decode` and the
two remote fetchers. -/
structure RFEnv where
  /-- whether `os.Stat(p)` succeeds -/
  statOk : String → Bool
  /-- `os.ReadFile(p)` -/
  readF : String → Except RFErr String
  /-- `filepath.Rel(globalCacheDir, p)` -/
  rel : String → String → Except RFErr String
  /-- `urlfilepath.Decode(pathstr)` -/
  decode : String → Except RFErr GoURL
  /-- `readFileViaHTTPS(u.String())` -/
  httpsFetch : String → Except RFErr String
  /-- `readFileViaGitHub(u.String())` -/
  githubFetch : String → Except RFErr String
  /-- whether `os.WriteFile(p, b, os.ModePerm)` succeeds -/
  writeOk : String → String → Bool

/-- `readFile` from `path.go`, with the package-level global
`globalCacheDir` passed explicitly so that dependence on it can be stated:
read the local file when it exists; otherwise, when the path lies under the
cache directory, re-fetch the remote file by decoding the cache-relative
path back into a URL, write the cache and return the bytes. -/
def readFile (env : RFEnv) (globalCacheDir : String) (p : String) : Except RFErr String :=
  if env.statOk p then
    env.readF p
  else if globalCacheDir = "" ∨ ¬ goStartsWith p globalCacheDir then
    Except.error RFErr.statErr
  else
    match env.rel globalCacheDir p with
    | Except.error e => Except.error e
    | Except.ok pathstr =>
      match env.decode pathstr with
      | Except.error e => Except.error e
      | Except.ok u =>
        if u.scheme = schemeHttps then
          match env.httpsFetch (urlString u) with
          | Except.error e => Except.error e
          | Except.ok b =>
            if env.writeOk p b then Except.ok b else Except.error RFErr.writeErr
        else if u.scheme = schemeGitHub then
          match env.githubFetch (urlString u) with
          | Except.error e => Except.error e
          | Except.ok b =>
            if env.writeOk p b then Except.ok b else Except.error RFErr.writeErr
        else
          Except.error RFErr.unsupportedScheme

/-- A concrete `RFEnv` under which `readFile` demonstrably depends on the
cache-directory global: the file is absent locally, and decoding the
cache-relative path yields an HTTPS URL that fetches successfully. -/
def rfEnvW : RFEnv :=
  ⟨fun _ => false, fun _ => Except.error RFErr.readErr, fun _ _ => Except.ok "x",
    fun _ => Except.ok ⟨"https", "example.com/f"⟩, fun _ => Except.ok "data",
    fun _ => Except.error RFErr.githubFetchErr, fun _ _ => true⟩

/-- C4 counterexample: `readFile` reads the package-level cache-directory
state rather than receiving it as fixed configuration — two runs that differ
only in `globalCacheDir` (empty vs. a prefix of the path) return a stat
error in one case and fetched bytes in the other. -/
theorem c4_cache_global_counterexample :
    readFile rfEnvW "" "cache/f" = Except.error RFErr.statErr ∧
    readFile rfEnvW "cache" "cache/f" = Except.ok "data" ∧
    readFile rfEnvW "" "cache/f" ≠ readFile rfEnvW "cache" "cache/f" := by
  refine ⟨rfl, rfl, fun h => ?_⟩
  have h' : (Except.error RFErr.statErr : Except RFErr String) = Except.ok "data" := h
  exact Except.noConfusion h'

/-- C4 (amended): the result of `readFile` is independent of the
cache-directory global exactly on the local-file fast path — whenever
`os.Stat` succeeds, both runs return `os.ReadFile`'s result, whatever the
global holds. -/
theorem c4_readFile_stat_hit_independent (env : RFEnv) (p gcd gcd' : String)
    (h : env.statOk p = true) :
    readFile env gcd p = readFile env gcd' p := by
  rw [readFile, readFile, if_pos h, if_pos h]

theorem c4_readFile_witness :
    readFile ⟨fun _ => true, fun _ => Except.ok "b", fun _ _ => Except.ok "x",
        fun _ => Except.ok ⟨"https", "r"⟩, fun _ => Except.ok "d",
        fun _ => Except.ok "d", fun _ _ => true⟩ "" "f" =
      readFile ⟨fun _ => true, fun _ => Except.ok "b", fun _ _ => Except.ok "x",
        fun _ => Except.ok ⟨"https", "r"⟩, fun _ => Except.ok "d",
        fun _ => Except.ok "d", fun _ _ => true⟩ "cache" "f" :=
  c4_readFile_stat_hit_independent
    ⟨fun _ => true, fun _ => Except.ok "b", fun _ _ => Except.ok "x",
      fun _ => Except.ok ⟨"https", "r"⟩, fun _ => Except.ok "d",
      fun _ => Except.ok "d", fun _ _ => true⟩ "f" "" "cache" (by rfl)

/-! ## Loop Controller

The Loop Controller implementation is not part of the sources at hand (only
its scenario fixture `testdata/book/loop.yml` is), so it is modelled from
the specification's state machine (§4.4).
-/

/-- Terminal states of the Loop Controller state machine. -/
inductive LoopState where
  | Satisfied
  | Exhausted
  | Failed
deriving DecidableEq, Repr

/-- An abstract per-iteration Outcome; only its identity matters to the
controller, which hands it to the optional `until` predicate. -/
structure LoopOutcome where
  value : Nat
deriving DecidableEq, Repr

/-- Modelled from the spec: the Loop Controller iteration loop (§4.4) —
missing from the sources, which contain only its `loop.yml` fixture. `i`
invocations have already run and `rem` remain of the resolved count. Each
iteration runs the wrapped invocation; an invocation error terminates
`Failed` immediately; with `until` present a truthy evaluation terminates
`Satisfied` and exhausting the count terminates `Exhausted`; with `until`
absent the loop runs all remaining iterations and ends `Satisfied`.
Returns the total number of invocations executed and the terminal state. -/
def loopGo (invoke : Nat → Except Unit LoopOutcome) (until? : Option (LoopOutcome → Bool)) :
    Nat → Nat → Nat × LoopState
  | i, 0 =>
    (i, match until? with
        | some _ => LoopState.Exhausted
        | none => LoopState.Satisfied)
  | i, rem + 1 =>
    match invoke i with
    | Except.error _ => (i + 1, LoopState.Failed)
    | Except.ok o =>
      match until? with
      | some p => if p o then (i + 1, LoopState.Satisfied) else loopGo invoke until? (i + 1) rem
      | none => loopGo invoke until? (i + 1) rem

/-- Modelled from the spec: run a step's loop with resolved count `count`
(frozen before the loop starts) and optional `until` predicate. -/
def loopRun (invoke : Nat → Except Unit LoopOutcome) (until? : Option (LoopOutcome → Bool))
    (count : Nat) : Nat × LoopState :=
  loopGo invoke until? 0 count

lemma loopGo_no_until (invoke : Nat → Except Unit LoopOutcome) :
    ∀ rem i, (∀ j, j < i + rem → (invoke j).isOk = true) →
      loopGo invoke none i rem = (i + rem, LoopState.Satisfied) := by
  intro rem
  induction rem with
  | zero => intro i _; simp [loopGo]
  | succ r ih =>
    intro i hok
    rw [loopGo]
    cases hi : invoke i with
    | error u =>
      have := hok i (by omega)
      rw [hi] at this
      simp [Except.isOk, Except.toBool] at this
    | ok o =>
      rw [ih (i + 1) (fun j hj => hok j (by omega))]
      have harith : i + 1 + r = i + (r + 1) := by omega
      rw [harith]

/-- C6: with `until` absent and resolved count `N`, every invocation
completing with an Outcome (whatever that Outcome is), the wrapped
invocation executes exactly `N` times and the loop terminates `Satisfied`. -/
theorem c6_loop_without_until_runs_count_times (invoke : Nat → Except Unit LoopOutcome)
    (n : Nat) (hok : ∀ j, j < n → (invoke j).isOk = true) :
    loopRun invoke none n = (n, LoopState.Satisfied) := by
  rw [loopRun, loopGo_no_until invoke n 0 (by simpa using hok)]
  simp

theorem c6_loop_witness :
    loopRun (fun j => Except.ok ⟨j * 100⟩) none 3 = (3, LoopState.Satisfied) :=
  c6_loop_without_until_runs_count_times (fun j => Except.ok ⟨j * 100⟩) 3
    (fun _ _ => rfl)

/-! ## `httpRequest.validate` -/

/-- `MediaTypeApplicationJSON` from the source. -/
def MediaTypeApplicationJSON : String := "application/json"

/-- `MediaTypeTextPlain` from the source. -/
def MediaTypeTextPlain : String := "text/plain"

/-- `MediaTypeApplicationFormUrlencoded` from the source. -/
def MediaTypeApplicationFormUrlencoded : String := "application/x-www-form-urlencoded"

/-- `MediaTypeMultipartFormData` from the source. -/
def MediaTypeMultipartFormData : String := "multipart/form-data"

/-- The fields of `httpRequest` that `validate` inspects; `body` is `any`
in Go so only its nil-ness matters here. -/
structure HttpRequest where
  method : String
  mediaType : String
  body : Option Unit
deriving DecidableEq, Repr

/-- `httpRequest.isMultipartFormDataMediaType` from the source. -/
def HttpRequest.isMultipartFormDataMediaType (r : HttpRequest) : Bool :=
  if r.mediaType = MediaTypeMultipartFormData then
    true
  else
    goStartsWith r.mediaType (MediaTypeMultipartFormData ++ "; boundary=")

/-- Error classification of `httpRequest.validate`. -/
inductive ValidateErr where
  | requiresMediaType
  | requiresBody
  | unsupportedMediaType
deriving DecidableEq, Repr

/-- `httpRequest.validate` from the source: POST and PATCH need a media type
and a body; a multipart media type passes; otherwise the media type must be
JSON, plain text, form-urlencoded or empty. -/
def HttpRequest.validate (r : HttpRequest) : Option ValidateErr :=
  if r.method = "POST" ∨ r.method = "PATCH" then
    if r.mediaType = "" then
      some ValidateErr.requiresMediaType
    else if r.body = none then
      some ValidateErr.requiresBody
    else if r.isMultipartFormDataMediaType then
      none
    else if r.mediaType = MediaTypeApplicationJSON ∨ r.mediaType = MediaTypeTextPlain ∨
        r.mediaType = MediaTypeApplicationFormUrlencoded ∨ r.mediaType = "" then
      none
    else
      some ValidateErr.unsupportedMediaType
  else if r.isMultipartFormDataMediaType then
    none
  else if r.mediaType = MediaTypeApplicationJSON ∨ r.mediaType = MediaTypeTextPlain ∨
      r.mediaType = MediaTypeApplicationFormUrlencoded ∨ r.mediaType = "" then
    none
  else
    some ValidateErr.unsupportedMediaType

/-- C10: `validate` succeeds iff the POST/PATCH media-type and body
requirements hold and the media type is multipart (with or without a
boundary parameter) or one of the three supported types or empty. -/
theorem c10_validate_characterization (r : HttpRequest) :
    r.validate = none ↔
      ((r.method = "POST" ∨ r.method = "PATCH") → r.mediaType ≠ "" ∧ r.body ≠ none) ∧
      (r.isMultipartFormDataMediaType = true ∨
        r.mediaType = MediaTypeApplicationJSON ∨ r.mediaType = MediaTypeTextPlain ∨
        r.mediaType = MediaTypeApplicationFormUrlencoded ∨ r.mediaType = "") := by
  unfold HttpRequest.validate
  by_cases hm : r.method = "POST" ∨ r.method = "PATCH"
  · rw [if_pos hm]
    by_cases hmt : r.mediaType = ""
    · simp [hmt, hm]
    · rw [if_neg hmt]
      by_cases hb : r.body = none
      · simp [hb, hm, hmt]
      · rw [if_neg hb]
        by_cases hmp : r.isMultipartFormDataMediaType = true
        · simp [hmp, hm, hmt, hb]
        · rw [if_neg hmp]
          by_cases hsup : r.mediaType = MediaTypeApplicationJSON ∨
              r.mediaType = MediaTypeTextPlain ∨
              r.mediaType = MediaTypeApplicationFormUrlencoded ∨ r.mediaType = ""
          · simp only [hsup, hm, hmt, hb, hmp]
            simp [hm, hmt, hb, hmp]
            tauto
          · simp only [hsup, hm, hmt, hb, hmp]
            simp [hm, hmt, hb, hmp]
            tauto
  · rw [if_neg hm]
    by_cases hmp : r.isMultipartFormDataMediaType = true
    · simp [hmp, hm]
    · rw [if_neg hmp]
      by_cases hsup : r.mediaType = MediaTypeApplicationJSON ∨
          r.mediaType = MediaTypeTextPlain ∨
          r.mediaType = MediaTypeApplicationFormUrlencoded ∨ r.mediaType = ""
      · simp [hsup, hm, hmp]
      · simp [hsup, hm, hmp]

/-! ## `httpRunner.Run`

The runner body is embedded with each external call represented in a
`RunEnv`: body encoding, TLS setup, URL merging and request construction
keep only their success/failure outcome (their values feed only the
transport, which is itself the `doResult` field); the transport returns a
response value. The capturer is an arbitrary state transformer whose state
is threaded through exactly at the two notification sites, and the run also
emits the list of observable events around the backend call.
-/

/-- Observable events of one `Run` invocation. -/
inductive RunEvent where
  | captureRequest
  | backendCall
  | captureResponse
deriving DecidableEq, Repr

/-- What a capturer notification carries (request or response). -/
inductive CapEvt where
  | req
  | res
deriving DecidableEq, Repr

/-- A decoded JSON value as returned by the external `json.Unmarshal`. -/
inductive JsonVal where
  | null
  | num (n : Nat)
  | str (s : String)
deriving DecidableEq, Repr

instance exceptDecEq {ε α : Type} [DecidableEq ε] [DecidableEq α] : DecidableEq (Except ε α)
  | Except.error e, Except.error f =>
    if h : e = f then Decidable.isTrue (by rw [h])
    else Decidable.isFalse (by intro hh; cases hh; exact h rfl)
  | Except.error _, Except.ok _ => Decidable.isFalse (by intro h; cases h)
  | Except.ok _, Except.error _ => Decidable.isFalse (by intro h; cases h)
  | Except.ok a, Except.ok b =>
    if h : a = b then Decidable.isTrue (by rw [h])
    else Decidable.isFalse (by intro hh; cases hh; exact h rfl)

/-- An obtained `*http.Response`: status code, header list, the result of
`io.ReadAll(res.Body)` (reading the stream may itself fail), and the
response cookies. -/
structure HttpRes where
  statusCode : Nat
  headers : List (String × String)
  bodyRead : Except Unit String
  cookies : List HttpCookie
deriving DecidableEq

/-- `res.Header.Get(k)`: the first value stored for the key, `""` if none. -/
def headerGet (hs : List (String × String)) (k : String) : String :=
  match hs.find? (fun p => p.1 == k) with
  | some p => p.2
  | none => ""

/-- Result of `validator.ValidateResponse`: success, an `UnsupportedError`
(logged and skipped by `Run`), or a failure. -/
inductive ValRes where
  | ok
  | unsupported
  | failed
deriving DecidableEq, Repr

/-- Which arm of the `Run` switch applies: `rnr.client != nil`,
`rnr.handler != nil`, or neither. -/
inductive RunnerKind where
  | client
  | handler
  | invalid
deriving DecidableEq, Repr

/-- Error classification for `Run`, labelling the call whose error is
returned. -/
inductive HErr where
  | encodeBodyErr
  | sysCertPoolErr
  | cacertTransportErr
  | keyPairErr
  | certTransportErr
  | mergeURLErr
  | newRequestErr
  | validateReqErr
  | transportErr
  | validateResErr
  | readBodyErr
  | jsonErr
  | invalidRunnerErr
deriving DecidableEq, Repr

/-- Environment of one `Run` invocation: the runner arm, the outcome of each
fallible setup call, the transport result, the handler response, the
response-validator verdict, the external JSON decoder and the runner's
endpoint host (for the cookie Domain default). -/
structure RunEnv where
  kind : RunnerKind
  /-- `r.encodeBody()` succeeds -/
  encodeBodyOk : Bool
  /-- `len(rnr.cacert) != 0` -/
  hasCacert : Bool
  /-- `x509.SystemCertPool()` returned no error -/
  sysCertPoolOk : Bool
  /-- `certpool.AppendCertsFromPEM(rnr.cacert)` succeeded -/
  appendCertsOk : Bool
  /-- `rnr.client.Transport.(*http.Transport)` type assertion holds -/
  transportIsHTTP : Bool
  /-- `len(rnr.cert) != 0 && len(rnr.key) != 0` -/
  hasCertKey : Bool
  /-- `tls.X509KeyPair(rnr.cert, rnr.key)` succeeded -/
  keyPairOk : Bool
  /-- `mergeURL(rnr.endpoint, r.path)` succeeded -/
  mergeURLOk : Bool
  /-- `http.NewRequestWithContext(...)` succeeded -/
  newRequestOk : Bool
  /-- `rnr.validator.ValidateRequest(ctx, req)` succeeded -/
  validateReqOk : Bool
  /-- `rnr.client.Do(req)` -/
  doResult : Except Unit HttpRes
  /-- `w.Result()` of the `httptest` recorder in the handler arm -/
  handlerRes : HttpRes
  /-- `rnr.validator.ValidateResponse(ctx, req, res)` verdict -/
  validateRes : ValRes
  /-- `json.Unmarshal(resBody, &b)` -/
  jsonUnmarshal : String → Except Unit JsonVal
  /-- `rnr.endpoint.Host` when `rnr.endpoint != nil` -/
  endpointHost : Option String

/-- The store entry `d` recorded under the `res` key: status, decoded body
(`nil` unless the content type says JSON and the body is non-empty), raw
body, headers and the name-keyed cookie map. -/
structure HttpStoreEntry where
  status : Nat
  body : Option JsonVal
  rawBody : String
  headers : List (String × String)
  cookieMap : List (String × HttpCookie)
deriving DecidableEq

/-- Go map assignment `keyMap[k] = v` on an association list: overwrite the
existing key in place or append. -/
def assocSet (m : List (String × HttpCookie)) (k : String) (v : HttpCookie) :
    List (String × HttpCookie) :=
  if m.any (fun p => p.1 == k) then
    m.map (fun p => if p.1 == k then (k, v) else p)
  else
    m ++ [(k, v)]

/-- The `keyMap` loop of `Run`: default a cookie's empty Domain to the
endpoint host, then key the map by cookie name (last write wins). -/
def buildCookieMap (endpointHost : Option String) (cookies : List HttpCookie) :
    List (String × HttpCookie) :=
  cookies.foldl
    (fun m c =>
      let c' :=
        if c.domain = "" then
          match endpointHost with
          | some h => HttpCookie.mk c.name c.value h c.path c.expires
          | none => c
        else c
      assocSet m c'.name c')
    []

/-- The cookie map stored in the entry: built only when the response carries
cookies (the `len(cookies) > 0` branch, which also merges the cookies into
the operator's jar via `recordToCookie`), empty otherwise. -/
def cookieMapOf (env : RunEnv) (res : HttpRes) : List (String × HttpCookie) :=
  if res.cookies.length > 0 then buildCookieMap env.endpointHost res.cookies else []

/-- Result of one embedded `Run`: the returned error (if any), the store
entry recorded via `operator.record` (if reached), the event list, and the
capturer's final state. -/
structure RunOut (σ : Type) where
  err : Option HErr
  recorded : Option HttpStoreEntry
  events : List RunEvent
  capState : σ

/-- Lines 748-801 of the runner: capture the response, validate it (an
`UnsupportedError` verdict is only logged), read the body, decode JSON when
the content type contains "json" and the body is non-empty, assemble the
entry and record it. -/
def runTail {σ : Type} (env : RunEnv) (res : HttpRes) (cap : σ → CapEvt → σ) (s : σ)
    (evs : List RunEvent) : RunOut σ :=
  let s1 := cap s CapEvt.res
  let evs1 := evs ++ [RunEvent.captureResponse]
  if env.validateRes = ValRes.failed then
    ⟨some HErr.validateResErr, none, evs1, s1⟩
  else
    match res.bodyRead with
    | Except.error _ => ⟨some HErr.readBodyErr, none, evs1, s1⟩
    | Except.ok resBody =>
      if goContains (headerGet res.headers "Content-Type") "json" = true ∧ resBody ≠ "" then
        match env.jsonUnmarshal resBody with
        | Except.error _ => ⟨some HErr.jsonErr, none, evs1, s1⟩
        | Except.ok b =>
          ⟨none, some ⟨res.statusCode, some b, resBody, res.headers, cookieMapOf env res⟩,
            evs1, s1⟩
      else
        ⟨none, some ⟨res.statusCode, none, resBody, res.headers, cookieMapOf env res⟩,
          evs1, s1⟩

/-- The `rnr.client != nil` arm: TLS setup (the transport-clone and
`InsecureSkipVerify` assignments cannot fail; note the `return err` with a
nil `err` when `AppendCertsFromPEM` fails but `SystemCertPool` did not),
URL merge, request construction, header/cookie population (request-only
mutations folded into `doResult`), request capture, request validation,
then the backend call. -/
def runClient {σ : Type} (env : RunEnv) (cap : σ → CapEvt → σ) (s : σ) : RunOut σ :=
  if env.hasCacert = true ∧ env.appendCertsOk = false then
    if env.sysCertPoolOk = true then
      ⟨none, none, [], s⟩
    else
      ⟨some HErr.sysCertPoolErr, none, [], s⟩
  else if env.hasCacert = true ∧ env.transportIsHTTP = false then
    ⟨some HErr.cacertTransportErr, none, [], s⟩
  else if env.hasCertKey = true ∧ env.keyPairOk = false then
    ⟨some HErr.keyPairErr, none, [], s⟩
  else if env.hasCertKey = true ∧ env.transportIsHTTP = false then
    ⟨some HErr.certTransportErr, none, [], s⟩
  else if env.mergeURLOk = false then
    ⟨some HErr.mergeURLErr, none, [], s⟩
  else if env.newRequestOk = false then
    ⟨some HErr.newRequestErr, none, [], s⟩
  else
    let s1 := cap s CapEvt.req
    if env.validateReqOk = false then
      ⟨some HErr.validateReqErr, none, [RunEvent.captureRequest], s1⟩
    else
      match env.doResult with
      | Except.error _ =>
        ⟨some HErr.transportErr, none, [RunEvent.captureRequest, RunEvent.backendCall], s1⟩
      | Except.ok res =>
        runTail env res cap s1 [RunEvent.captureRequest, RunEvent.backendCall]

/-- The `rnr.handler != nil` arm: build the test request (header population
is request-only), capture it, validate it, then serve it with the in-process
handler, which always yields a response. -/
def runHandler {σ : Type} (env : RunEnv) (cap : σ → CapEvt → σ) (s : σ) : RunOut σ :=
  let s1 := cap s CapEvt.req
  if env.validateReqOk = false then
    ⟨some HErr.validateReqErr, none, [RunEvent.captureRequest], s1⟩
  else
    runTail env env.handlerRes cap s1 [RunEvent.captureRequest, RunEvent.backendCall]

/-- `httpRunner.Run`: encode the body, dispatch on the runner arm, and fail
with "invalid http runner" when neither client nor handler is set. -/
def httpRun {σ : Type} (env : RunEnv) (cap : σ → CapEvt → σ) (s : σ) : RunOut σ :=
  if env.encodeBodyOk = false then
    ⟨some HErr.encodeBodyErr, none, [], s⟩
  else
    match env.kind with
    | RunnerKind.client => runClient env cap s
    | RunnerKind.handler => runHandler env cap s
    | RunnerKind.invalid => ⟨some HErr.invalidRunnerErr, none, [], s⟩

/-- The response the backend delivered, if any: the transport's success
value in the client arm, always the recorder's result in the handler arm. -/
def obtainedRes (env : RunEnv) : Option HttpRes :=
  match env.kind with
  | RunnerKind.client => env.doResult.toOption
  | RunnerKind.handler => some env.handlerRes
  | RunnerKind.invalid => none

/-- The same response with its status code replaced. -/
def setStatusRes (res : HttpRes) (n : Nat) : HttpRes :=
  ⟨n, res.headers, res.bodyRead, res.cookies⟩

/-- The same environment with every backend status code replaced by `n`. -/
def setStatus (env : RunEnv) (n : Nat) : RunEnv :=
  ⟨env.kind, env.encodeBodyOk, env.hasCacert, env.sysCertPoolOk, env.appendCertsOk,
    env.transportIsHTTP, env.hasCertKey, env.keyPairOk, env.mergeURLOk, env.newRequestOk,
    env.validateReqOk, Except.map (fun r => setStatusRes r n) env.doResult,
    setStatusRes env.handlerRes n, env.validateRes, env.jsonUnmarshal, env.endpointHost⟩

lemma runTail_err_recorded {σ : Type} (env : RunEnv) (res : HttpRes) (cap : σ → CapEvt → σ)
    (s : σ) (evs : List RunEvent) :
    (runTail env res cap s evs).err.isSome = true → (runTail env res cap s evs).recorded = none := by
  simp only [runTail]
  (repeat' split) <;> simp

lemma runTail_events {σ : Type} (env : RunEnv) (res : HttpRes) (cap : σ → CapEvt → σ)
    (s : σ) (evs : List RunEvent) :
    (runTail env res cap s evs).events = evs ++ [RunEvent.captureResponse] := by
  simp only [runTail]
  (repeat' split) <;> rfl

lemma runTail_capIndep {σ σ' : Type} (env : RunEnv) (res : HttpRes) (evs : List RunEvent)
    (cap : σ → CapEvt → σ) (s : σ) (cap' : σ' → CapEvt → σ') (s' : σ') :
    (runTail env res cap s evs).err = (runTail env res cap' s' evs).err ∧
    (runTail env res cap s evs).recorded = (runTail env res cap' s' evs).recorded ∧
    (runTail env res cap s evs).events = (runTail env res cap' s' evs).events := by
  simp only [runTail]
  (repeat' split) <;> exact ⟨rfl, rfl, rfl⟩

lemma runTail_ok {σ : Type} (env : RunEnv) (res : HttpRes) (cap : σ → CapEvt → σ) (s : σ)
    (evs : List RunEvent) (raw : String) (h1 : env.validateRes ≠ ValRes.failed)
    (h2 : res.bodyRead = Except.ok raw)
    (h3 : goContains (headerGet res.headers "Content-Type") "json" = true ∧ raw ≠ "" →
      (env.jsonUnmarshal raw).isOk = true) :
    (runTail env res cap s evs).err = none ∧
    ∃ entry, (runTail env res cap s evs).recorded = some entry ∧
      entry.status = res.statusCode := by
  simp only [runTail, h2]
  rw [if_neg h1]
  by_cases hc : goContains (headerGet res.headers "Content-Type") "json" = true ∧ raw ≠ ""
  · rw [if_pos hc]
    have hok := h3 hc
    cases hju : env.jsonUnmarshal raw with
    | error u =>
      rw [hju] at hok
      simp [Except.isOk, Except.toBool] at hok
    | ok b =>
      simp only [hju]
      exact ⟨by trivial, ⟨res.statusCode, some b, raw, res.headers, cookieMapOf env res⟩,
        by trivial, by trivial⟩
  · rw [if_neg hc]
    exact ⟨by trivial, ⟨res.statusCode, none, raw, res.headers, cookieMapOf env res⟩,
      by trivial, by trivial⟩

lemma runTail_recorded_fields {σ : Type} (env : RunEnv) (res : HttpRes) (cap : σ → CapEvt → σ)
    (s : σ) (evs : List RunEvent) (raw : String) (entry : HttpStoreEntry)
    (h2 : res.bodyRead = Except.ok raw)
    (hrec : (runTail env res cap s evs).recorded = some entry) :
    entry.status = res.statusCode ∧ entry.rawBody = raw ∧ entry.headers = res.headers ∧
    ((goContains (headerGet res.headers "Content-Type") "json" = true ∧ raw ≠ "") →
      ∃ b, env.jsonUnmarshal raw = Except.ok b ∧ entry.body = some b) ∧
    (¬(goContains (headerGet res.headers "Content-Type") "json" = true ∧ raw ≠ "") →
      entry.body = none) := by
  simp only [runTail, h2] at hrec
  by_cases hv : env.validateRes = ValRes.failed
  · rw [if_pos hv] at hrec
    exact absurd hrec (by simp)
  · rw [if_neg hv] at hrec
    by_cases hc : goContains (headerGet res.headers "Content-Type") "json" = true ∧ raw ≠ ""
    · rw [if_pos hc] at hrec
      cases hju : env.jsonUnmarshal raw with
      | error u =>
        rw [hju] at hrec
        exact absurd hrec (by simp)
      | ok b =>
        rw [hju] at hrec
        have he := Option.some.inj hrec
        subst he
        exact ⟨rfl, rfl, rfl, fun _ => ⟨b, rfl, rfl⟩, fun hn => absurd hc hn⟩
    · rw [if_neg hc] at hrec
      have he := Option.some.inj hrec
      subst he
      exact ⟨rfl, rfl, rfl, fun hcc => absurd hcc hc, fun _ => rfl⟩

lemma runTail_json_error {σ : Type} (env : RunEnv) (res : HttpRes) (cap : σ → CapEvt → σ)
    (s : σ) (evs : List RunEvent) (raw : String) (u : Unit)
    (hv : env.validateRes ≠ ValRes.failed) (h2 : res.bodyRead = Except.ok raw)
    (hc : goContains (headerGet res.headers "Content-Type") "json" = true ∧ raw ≠ "")
    (hju : env.jsonUnmarshal raw = Except.error u) :
    (runTail env res cap s evs).err = some HErr.jsonErr ∧
    (runTail env res cap s evs).recorded = none := by
  simp only [runTail, h2]
  rw [if_neg hv, if_pos hc]
  simp only [hju]
  exact ⟨by trivial, by trivial⟩

lemma runTail_err_statusIndep {σ : Type} (env env' : RunEnv) (res res' : HttpRes)
    (cap : σ → CapEvt → σ) (s : σ) (evs : List RunEvent)
    (h1 : env'.validateRes = env.validateRes) (h2 : env'.jsonUnmarshal = env.jsonUnmarshal)
    (h3 : res'.headers = res.headers) (h4 : res'.bodyRead = res.bodyRead) :
    (runTail env' res' cap s evs).err = (runTail env res cap s evs).err := by
  simp only [runTail, h1, h2, h3, h4]
  (repeat' split) <;> rfl

/-- The setup conditions under which control reaches the backend call of the
selected runner arm. -/
def setupOk (env : RunEnv) : Prop :=
  match env.kind with
  | RunnerKind.client =>
    ¬(env.hasCacert = true ∧ env.appendCertsOk = false) ∧
    ¬(env.hasCacert = true ∧ env.transportIsHTTP = false) ∧
    ¬(env.hasCertKey = true ∧ env.keyPairOk = false) ∧
    ¬(env.hasCertKey = true ∧ env.transportIsHTTP = false) ∧
    env.mergeURLOk = true ∧ env.newRequestOk = true
  | RunnerKind.handler => True
  | RunnerKind.invalid => False

/-- Control reaches the backend call: body encoding, arm setup and request
validation all succeed. -/
def reached (env : RunEnv) : Prop :=
  env.encodeBodyOk = true ∧ setupOk env ∧ env.validateReqOk = true

lemma httpRun_eq_runTail {σ : Type} (env : RunEnv) (cap : σ → CapEvt → σ) (s : σ)
    (h : reached env) (res : HttpRes) (hres : obtainedRes env = some res) :
    httpRun env cap s =
      runTail env res cap (cap s CapEvt.req) [RunEvent.captureRequest, RunEvent.backendCall] := by
  obtain ⟨henc, hsetup, hval⟩ := h
  unfold httpRun
  rw [if_neg (by simp [henc])]
  cases hk : env.kind with
  | client =>
    simp only [setupOk, hk] at hsetup
    obtain ⟨h1, h2, h3, h4, h5, h6⟩ := hsetup
    simp only [hk]
    unfold runClient
    rw [if_neg h1, if_neg h2, if_neg h3, if_neg h4, if_neg (by simp [h5]),
      if_neg (by simp [h6])]
    have hd : env.doResult = Except.ok res := by
      unfold obtainedRes at hres
      rw [hk] at hres
      cases hdo : env.doResult with
      | error u => rw [hdo] at hres; exact absurd hres (by simp [Except.toOption])
      | ok r =>
        rw [hdo] at hres
        simp only [Except.toOption, Option.some.injEq] at hres
        rw [hres]
    simp only [hd, hval]
    rw [if_neg (by simp)]
  | handler =>
    simp only [hk]
    unfold runHandler
    rw [if_neg (by simp [hval])]
    have hd : res = env.handlerRes := by
      unfold obtainedRes at hres
      rw [hk] at hres
      exact (Option.some.inj hres).symm
    rw [hd]
  | invalid =>
    simp only [setupOk, hk] at hsetup

lemma httpRun_err_recorded {σ : Type} (env : RunEnv) (cap : σ → CapEvt → σ) (s : σ) :
    (httpRun env cap s).err.isSome = true → (httpRun env cap s).recorded = none := by
  simp only [httpRun, runClient, runHandler]
  (repeat' split) <;>
    first
      | simp
      | exact runTail_err_recorded _ _ _ _ _

lemma httpRun_reached_of {σ : Type} (env : RunEnv) (cap : σ → CapEvt → σ) (s : σ)
    (h : RunEvent.backendCall ∈ (httpRun env cap s).events ∨
      (httpRun env cap s).recorded.isSome = true) :
    reached env := by
  rcases h with h | h <;>
  · revert h
    simp only [httpRun, runClient, runHandler]
    (repeat' split) <;> intro h <;> simp_all [reached, setupOk, runTail_events]

lemma httpRun_capIndep {σ σ' : Type} (env : RunEnv) (cap : σ → CapEvt → σ) (s : σ)
    (cap' : σ' → CapEvt → σ') (s' : σ') :
    (httpRun env cap s).err = (httpRun env cap' s').err ∧
    (httpRun env cap s).recorded = (httpRun env cap' s').recorded ∧
    (httpRun env cap s).events = (httpRun env cap' s').events := by
  simp only [httpRun, runClient, runHandler]
  (repeat' split) <;>
    first
      | exact ⟨rfl, rfl, rfl⟩
      | exact runTail_capIndep _ _ _ _ _ _ _

lemma httpRun_events_shape {σ : Type} (env : RunEnv) (cap : σ → CapEvt → σ) (s : σ) :
    (httpRun env cap s).events = [] ∨
    (httpRun env cap s).events = [RunEvent.captureRequest] ∨
    ((httpRun env cap s).events = [RunEvent.captureRequest, RunEvent.backendCall] ∧
      (obtainedRes env).isSome = false) ∨
    ((httpRun env cap s).events =
        [RunEvent.captureRequest, RunEvent.backendCall, RunEvent.captureResponse] ∧
      (obtainedRes env).isSome = true) := by
  simp only [httpRun, runClient, runHandler]
  repeat' split
  all_goals simp_all [runTail_events, obtainedRes, Except.toOption]

lemma httpRun_setStatus_err {σ : Type} (env : RunEnv) (n : Nat) (cap : σ → CapEvt → σ) (s : σ) :
    (httpRun (setStatus env n) cap s).err = (httpRun env cap s).err := by
  cases hd : env.doResult with
  | error u =>
    simp only [httpRun, runClient, runHandler, setStatus, hd, Except.map]
    (repeat' split) <;>
      first
        | rfl
        | exact runTail_err_statusIndep _ _ _ _ _ _ _ rfl rfl rfl rfl
  | ok res =>
    simp only [httpRun, runClient, runHandler, setStatus, hd, Except.map]
    (repeat' split) <;>
      first
        | rfl
        | exact runTail_err_statusIndep _ _ _ _ _ _ _ rfl rfl rfl rfl

/-- C1: an application-level error status is still a recorded Outcome — if
the backend call completes with a response and the response itself is
processable (validator verdict not failed, body readable, JSON parseable
when required), `Run` returns no error and records the entry with that
response's status, whatever the status code is; whenever `Run` returns an
error, nothing is recorded; and the returned error never depends on the
response status code (replacing every status code leaves it unchanged). -/
theorem c1_app_error_status_is_outcome {σ : Type} (env : RunEnv) (cap : σ → CapEvt → σ)
    (s : σ) (n : Nat) :
    (∀ res raw, RunEvent.backendCall ∈ (httpRun env cap s).events →
      obtainedRes env = some res →
      env.validateRes ≠ ValRes.failed →
      res.bodyRead = Except.ok raw →
      (goContains (headerGet res.headers "Content-Type") "json" = true ∧ raw ≠ "" →
        (env.jsonUnmarshal raw).isOk = true) →
      (httpRun env cap s).err = none ∧
        ∃ entry, (httpRun env cap s).recorded = some entry ∧
          entry.status = res.statusCode) ∧
    ((httpRun env cap s).err.isSome = true → (httpRun env cap s).recorded = none) ∧
    (httpRun (setStatus env n) cap s).err = (httpRun env cap s).err := by
  refine ⟨?_, httpRun_err_recorded env cap s, httpRun_setStatus_err env n cap s⟩
  intro res raw hev hres hv hbr hju
  have hre : reached env := httpRun_reached_of env cap s (Or.inl hev)
  rw [httpRun_eq_runTail env cap s hre res hres]
  exact runTail_ok env res cap (cap s CapEvt.req)
    [RunEvent.captureRequest, RunEvent.backendCall] raw hv hbr hju

/-- A concrete handler-arm environment: HTTP 500 with a JSON body that
decodes successfully. -/
def runEnvW : RunEnv :=
  ⟨RunnerKind.handler, true, false, true, true, true, false, true, true, true, true,
    Except.error (), ⟨500, [("Content-Type", "application/json")], Except.ok "7", []⟩,
    ValRes.ok, fun b => if b = "7" then Except.ok (JsonVal.num 7) else Except.error (), none⟩

/-- A concrete client-arm environment whose transport call fails. -/
def runEnvErr : RunEnv :=
  ⟨RunnerKind.client, true, false, true, true, true, false, true, true, true, true,
    Except.error (), ⟨200, [], Except.ok "", []⟩,
    ValRes.ok, fun _ => Except.error (), none⟩

theorem c1_witness :
    ((httpRun runEnvW (fun (k : Nat) _ => k + 1) 0).err = none ∧
      ∃ entry, (httpRun runEnvW (fun (k : Nat) _ => k + 1) 0).recorded = some entry ∧
        entry.status = runEnvW.handlerRes.statusCode) ∧
    (httpRun runEnvErr (fun (k : Nat) _ => k + 1) 0).recorded = none ∧
    (httpRun (setStatus runEnvW 200) (fun (k : Nat) _ => k + 1) 0).err =
      (httpRun runEnvW (fun (k : Nat) _ => k + 1) 0).err :=
  ⟨(c1_app_error_status_is_outcome runEnvW (fun (k : Nat) _ => k + 1) 0 200).1
      runEnvW.handlerRes "7" (by decide) (by rfl) (by decide) (by rfl) (fun _ => by rfl),
    (c1_app_error_status_is_outcome runEnvErr (fun (k : Nat) _ => k + 1) 0 200).2.1 (by rfl),
    (c1_app_error_status_is_outcome runEnvW (fun (k : Nat) _ => k + 1) 0 200).2.2⟩

/-- C5: a successful invocation records status, headers, raw body; the
decoded body equals the JSON-parse of the body exactly when the
Content-Type contains "json" and the body is non-empty, and is nil
otherwise; and a malformed JSON body in that situation makes `Run` return
the parse error and record nothing. -/
theorem c5_outcome_contents {σ : Type} (env : RunEnv) (cap : σ → CapEvt → σ) (s : σ) :
    (∀ res raw entry, obtainedRes env = some res → res.bodyRead = Except.ok raw →
      (httpRun env cap s).recorded = some entry →
      entry.status = res.statusCode ∧ entry.rawBody = raw ∧ entry.headers = res.headers ∧
      ((goContains (headerGet res.headers "Content-Type") "json" = true ∧ raw ≠ "") →
        ∃ b, env.jsonUnmarshal raw = Except.ok b ∧ entry.body = some b) ∧
      (¬(goContains (headerGet res.headers "Content-Type") "json" = true ∧ raw ≠ "") →
        entry.body = none)) ∧
    (∀ res raw u, obtainedRes env = some res →
      RunEvent.backendCall ∈ (httpRun env cap s).events →
      env.validateRes ≠ ValRes.failed → res.bodyRead = Except.ok raw →
      goContains (headerGet res.headers "Content-Type") "json" = true → raw ≠ "" →
      env.jsonUnmarshal raw = Except.error u →
      (httpRun env cap s).err = some HErr.jsonErr ∧
        (httpRun env cap s).recorded = none) := by
  constructor
  · intro res raw entry hres hbr hrec
    have hre : reached env := httpRun_reached_of env cap s (Or.inr (by rw [hrec]; rfl))
    rw [httpRun_eq_runTail env cap s hre res hres] at hrec
    exact runTail_recorded_fields env res cap (cap s CapEvt.req)
      [RunEvent.captureRequest, RunEvent.backendCall] raw entry hbr hrec
  · intro res raw u hres hev hv hbr hct hne hju
    have hre : reached env := httpRun_reached_of env cap s (Or.inl hev)
    rw [httpRun_eq_runTail env cap s hre res hres]
    exact runTail_json_error env res cap (cap s CapEvt.req)
      [RunEvent.captureRequest, RunEvent.backendCall] raw u hv hbr ⟨hct, hne⟩ hju

/-- A concrete handler-arm environment whose JSON body fails to decode. -/
def runEnvBadJson : RunEnv :=
  ⟨RunnerKind.handler, true, false, true, true, true, false, true, true, true, true,
    Except.error (), ⟨200, [("Content-Type", "application/json")], Except.ok "x", []⟩,
    ValRes.ok, fun _ => Except.error (), none⟩

theorem c5_witness :
    ((⟨500, some (JsonVal.num 7), "7", [("Content-Type", "application/json")], []⟩ :
        HttpStoreEntry).status = runEnvW.handlerRes.statusCode ∧
      (⟨500, some (JsonVal.num 7), "7", [("Content-Type", "application/json")], []⟩ :
        HttpStoreEntry).rawBody = "7" ∧
      (⟨500, some (JsonVal.num 7), "7", [("Content-Type", "application/json")], []⟩ :
        HttpStoreEntry).headers = runEnvW.handlerRes.headers ∧
      ((goContains (headerGet runEnvW.handlerRes.headers "Content-Type") "json" = true ∧
          ("7" : String) ≠ "") →
        ∃ b, runEnvW.jsonUnmarshal "7" = Except.ok b ∧
          (⟨500, some (JsonVal.num 7), "7", [("Content-Type", "application/json")], []⟩ :
            HttpStoreEntry).body = some b) ∧
      (¬(goContains (headerGet runEnvW.handlerRes.headers "Content-Type") "json" = true ∧
          ("7" : String) ≠ "") →
        (⟨500, some (JsonVal.num 7), "7", [("Content-Type", "application/json")], []⟩ :
          HttpStoreEntry).body = none)) ∧
    ((httpRun runEnvBadJson (fun (k : Nat) _ => k + 1) 0).err = some HErr.jsonErr ∧
      (httpRun runEnvBadJson (fun (k : Nat) _ => k + 1) 0).recorded = none) :=
  ⟨(c5_outcome_contents runEnvW (fun (k : Nat) _ => k + 1) 0).1
      runEnvW.handlerRes "7"
      ⟨500, some (JsonVal.num 7), "7", [("Content-Type", "application/json")], []⟩
      (by rfl) (by rfl) (by rfl),
    (c5_outcome_contents runEnvBadJson (fun (k : Nat) _ => k + 1) 0).2
      runEnvBadJson.handlerRes "x" () (by rfl) (by decide) (by decide) (by rfl)
      (by decide) (by decide) (by rfl)⟩

/-- C7: the capturer notifications never alter the result of `Run` (its
error, its recorded entry and its event sequence are the same for any
capturer and any capturer state); the request notification strictly
precedes the backend call whenever the call happens; and the response
notification happens exactly when a backend response was obtained,
immediately after the call. -/
theorem c7_capturer_observation {σ σ' : Type} (env : RunEnv) (cap : σ → CapEvt → σ) (s : σ)
    (cap' : σ' → CapEvt → σ') (s' : σ') :
    ((httpRun env cap s).err = (httpRun env cap' s').err ∧
      (httpRun env cap s).recorded = (httpRun env cap' s').recorded ∧
      (httpRun env cap s).events = (httpRun env cap' s').events) ∧
    (RunEvent.backendCall ∈ (httpRun env cap s).events →
      (httpRun env cap s).events.indexOf RunEvent.captureRequest <
        (httpRun env cap s).events.indexOf RunEvent.backendCall) ∧
    (RunEvent.captureResponse ∈ (httpRun env cap s).events ↔
      RunEvent.backendCall ∈ (httpRun env cap s).events ∧ (obtainedRes env).isSome = true) ∧
    (RunEvent.captureResponse ∈ (httpRun env cap s).events →
      (httpRun env cap s).events.indexOf RunEvent.captureResponse =
        (httpRun env cap s).events.indexOf RunEvent.backendCall + 1) := by
  refine ⟨httpRun_capIndep env cap s cap' s', ?_, ?_, ?_⟩ <;>
  · rcases httpRun_events_shape env cap s with h | h | ⟨h, hobt⟩ | ⟨h, hobt⟩ <;>
      rw [h] <;> simp_all

theorem c7_witness :
    ((httpRun runEnvW (fun (k : Nat) _ => k + 1) 0).err =
        (httpRun runEnvW (fun (l : List CapEvt) e => l ++ [e]) []).err ∧
      (httpRun runEnvW (fun (k : Nat) _ => k + 1) 0).recorded =
        (httpRun runEnvW (fun (l : List CapEvt) e => l ++ [e]) []).recorded ∧
      (httpRun runEnvW (fun (k : Nat) _ => k + 1) 0).events =
        (httpRun runEnvW (fun (l : List CapEvt) e => l ++ [e]) []).events) ∧
    (httpRun runEnvW (fun (k : Nat) _ => k + 1) 0).events.indexOf RunEvent.captureRequest <
      (httpRun runEnvW (fun (k : Nat) _ => k + 1) 0).events.indexOf RunEvent.backendCall ∧
    (httpRun runEnvW (fun (k : Nat) _ => k + 1) 0).events.indexOf RunEvent.captureResponse =
      (httpRun runEnvW (fun (k : Nat) _ => k + 1) 0).events.indexOf RunEvent.backendCall + 1 :=
  ⟨(c7_capturer_observation runEnvW (fun (k : Nat) _ => k + 1) 0
      (fun (l : List CapEvt) e => l ++ [e]) []).1,
    (c7_capturer_observation runEnvW (fun (k : Nat) _ => k + 1) 0
      (fun (l : List CapEvt) e => l ++ [e]) []).2.1 (by decide),
    (c7_capturer_observation runEnvW (fun (k : Nat) _ => k + 1) 0
      (fun (l : List CapEvt) e => l ++ [e]) []).2.2.2 (by decide)⟩

end Runn
